import Mathlib

/-!
Verification development for the Yoga layout bridge
(`crates/gpui/yoga_bridge/YogaBridge.cpp`).

The bridge exposes a handle layer over the Yoga flexbox engine: style
translation (`apply_style` and its helpers), measurement-context
bookkeeping (`yoga_set_measure`, `yoga_clear_measure`,
`drop_measure_context`, `release_measure_recursive`, `measure_proxy`),
child-list replacement (`yoga_set_children`), recursive destruction
(`yoga_free_node`) and layout invocation (`yoga_calculate_layout`,
`yoga_layout`).

This file gives a shallow embedding of that code and proves theorems
about it.  Pure style translation is embedded as a function from the
engine-side style state and an incoming style to the new engine-side
style state.  The stateful handle operations are embedded as functions
on an explicit node store; an operation that would dereference a
non-null pointer that does not denote a live node returns `none`,
marking undefined behavior in the C++.
-/

namespace YogaBridge

/-- A C `float` as it flows through the bridge: an ordinary magnitude or
the distinguished `YGUndefined` (NaN) constant.  The bridge never does
arithmetic on these values; it only transports them, so an exact
integer carrier is faithful. -/
inductive YFloat where
  | num (x : Int)
  | nan
  deriving DecidableEq

/-- `YogaValueUnit` from the FFI surface (used by `to_yg_value` and the
`apply_*` helpers in `YogaBridge.cpp`). -/
inductive YogaValueUnit where
  | point
  | percent
  | auto
  | undefined
  deriving DecidableEq

/-- `YogaValue`: a magnitude together with a unit tag. -/
structure YogaValue where
  value : YFloat
  unit : YogaValueUnit
  deriving DecidableEq

/-- `YGUnit` on the engine side. -/
inductive YGUnit where
  | undefined
  | point
  | percent
  | auto
  deriving DecidableEq

/-- `YGValue` on the engine side. -/
structure YGValue where
  value : YFloat
  unit : YGUnit
  deriving DecidableEq

/-- `to_yg_value` (YogaBridge.cpp, lines 22-34): Point and Percent keep
the magnitude; Auto becomes `{0.0f, YGUnitAuto}`; Undefined (and the
default case) becomes `{YGUndefined, YGUnitUndefined}`. -/
def to_yg_value (value : YogaValue) : YGValue :=
  match value.unit with
  | .point => ⟨value.value, .point⟩
  | .percent => ⟨value.value, .percent⟩
  | .auto => ⟨.num 0, .auto⟩
  | .undefined => ⟨.nan, .undefined⟩

/-! ### Enumerations and their conversions

Each `to_yg_*` function mirrors the corresponding `switch` statement in
`YogaBridge.cpp`, including its `default` arm. -/

/-- FFI `YogaDisplay`. -/
inductive YogaDisplay where
  | flex
  | none
  deriving DecidableEq

/-- Engine `YGDisplay`. -/
inductive YGDisplay where
  | flex
  | none
  deriving DecidableEq

/-- `to_yg_display` (lines 36-44). -/
def to_yg_display : YogaDisplay → YGDisplay
  | .none => .none
  | .flex => .flex

/-- FFI `YogaPositionType`. -/
inductive YogaPositionType where
  | relative
  | absolute
  deriving DecidableEq

/-- Engine `YGPositionType`. -/
inductive YGPositionType where
  | relative
  | absolute
  deriving DecidableEq

/-- `to_yg_position_type` (lines 46-54). -/
def to_yg_position_type : YogaPositionType → YGPositionType
  | .absolute => .absolute
  | .relative => .relative

/-- FFI `YogaOverflow`. -/
inductive YogaOverflow where
  | visible
  | hidden
  | scroll
  deriving DecidableEq

/-- Engine `YGOverflow`. -/
inductive YGOverflow where
  | visible
  | hidden
  | scroll
  deriving DecidableEq

/-- `to_yg_overflow` (lines 56-66). -/
def to_yg_overflow : YogaOverflow → YGOverflow
  | .hidden => .hidden
  | .scroll => .scroll
  | .visible => .visible

/-- FFI `YogaFlexDirection`. -/
inductive YogaFlexDirection where
  | row
  | rowReverse
  | column
  | columnReverse
  deriving DecidableEq

/-- Engine `YGFlexDirection`. -/
inductive YGFlexDirection where
  | column
  | columnReverse
  | row
  | rowReverse
  deriving DecidableEq

/-- `to_yg_flex_direction` (lines 68-80). -/
def to_yg_flex_direction : YogaFlexDirection → YGFlexDirection
  | .columnReverse => .columnReverse
  | .row => .row
  | .rowReverse => .rowReverse
  | .column => .column

/-- FFI `YogaWrap`. -/
inductive YogaWrap where
  | noWrap
  | wrap
  | wrapReverse
  deriving DecidableEq

/-- Engine `YGWrap`. -/
inductive YGWrap where
  | noWrap
  | wrap
  | wrapReverse
  deriving DecidableEq

/-- `to_yg_wrap` (lines 82-92). -/
def to_yg_wrap : YogaWrap → YGWrap
  | .wrap => .wrap
  | .wrapReverse => .wrapReverse
  | .noWrap => .noWrap

/-- FFI `YogaAlign` (the cases handled by the bridge's switch). -/
inductive YogaAlign where
  | auto
  | flexStart
  | center
  | flexEnd
  | stretch
  | baseline
  | spaceBetween
  | spaceAround
  deriving DecidableEq

/-- Engine `YGAlign`. -/
inductive YGAlign where
  | auto
  | flexStart
  | center
  | flexEnd
  | stretch
  | baseline
  | spaceBetween
  | spaceAround
  deriving DecidableEq

/-- `to_yg_align` (lines 94-115); the `default` arm yields `YGAlignAuto`. -/
def to_yg_align : YogaAlign → YGAlign
  | .auto => .auto
  | .flexStart => .flexStart
  | .center => .center
  | .flexEnd => .flexEnd
  | .stretch => .stretch
  | .baseline => .baseline
  | .spaceBetween => .spaceBetween
  | .spaceAround => .spaceAround

/-- FFI `YogaJustify`. -/
inductive YogaJustify where
  | flexStart
  | center
  | flexEnd
  | spaceBetween
  | spaceAround
  | spaceEvenly
  deriving DecidableEq

/-- Engine `YGJustify`. -/
inductive YGJustify where
  | flexStart
  | center
  | flexEnd
  | spaceBetween
  | spaceAround
  | spaceEvenly
  deriving DecidableEq

/-- `to_yg_justify` (lines 117-133). -/
def to_yg_justify : YogaJustify → YGJustify
  | .center => .center
  | .flexEnd => .flexEnd
  | .spaceBetween => .spaceBetween
  | .spaceAround => .spaceAround
  | .spaceEvenly => .spaceEvenly
  | .flexStart => .flexStart

/-! ### Engine-side style slots

`YGNodeStyleSet{Margin,Padding,Position,Border,Gap,...}` store a
unit-tagged slot per property.  Modelled from the spec: the engine-side
style holds unit-tagged values (§3); storing the `YGUndefined` (NaN)
magnitude through a point or percent setter leaves the slot in its
undefined ("not set") state, matching §3's reading of Undefined as "not
set". -/

/-- One engine-side style slot. -/
inductive GVal where
  | points (x : Int)
  | pct (x : Int)
  | auto
  | unset
  deriving DecidableEq

/-- A point setter (`YGNodeStyleSet*` with a float argument): storing
`YGUndefined` yields the undefined slot. -/
def set_point_val : YFloat → GVal
  | .num x => .points x
  | .nan => .unset

/-- A percent setter (`YGNodeStyleSet*Percent`). -/
def set_percent_val : YFloat → GVal
  | .num x => .pct x
  | .nan => .unset

/-- An optional-float setter (`YGNodeStyleSetFlexGrow` and friends store
a float-optional that is empty when given `YGUndefined`). -/
def set_float_opt : YFloat → Option Int
  | .num x => some x
  | .nan => none

/-- The engine-side (Yoga node) style state written by `apply_style`:
one field per property the bridge sets. -/
structure YGStyle where
  display : YGDisplay
  position_type : YGPositionType
  overflow : YGOverflow
  flex_direction : YGFlexDirection
  flex_wrap : YGWrap
  justify_content : YGJustify
  align_items : YGAlign
  align_content : YGAlign
  align_self : YGAlign
  margin_left : GVal
  margin_top : GVal
  margin_right : GVal
  margin_bottom : GVal
  padding_left : GVal
  padding_top : GVal
  padding_right : GVal
  padding_bottom : GVal
  border_left : GVal
  border_top : GVal
  border_right : GVal
  border_bottom : GVal
  position_left : GVal
  position_top : GVal
  position_right : GVal
  position_bottom : GVal
  width : GVal
  height : GVal
  min_width : GVal
  min_height : GVal
  max_width : GVal
  max_height : GVal
  flex_basis : GVal
  flex_grow : Option Int
  flex_shrink : Option Int
  aspect_ratio : Option Int
  column_gap : GVal
  row_gap : GVal
  deriving DecidableEq

/-- Modelled from the spec: the frozen default style of a freshly
created node (§9 "a single frozen default-Style value"; §3 unset
semantics) — every optional numeric property unset, dimensions auto,
flex-basis auto, all edges undefined. -/
def yg_default_style : YGStyle where
  display := .flex
  position_type := .relative
  overflow := .visible
  flex_direction := .column
  flex_wrap := .noWrap
  justify_content := .flexStart
  align_items := .stretch
  align_content := .flexStart
  align_self := .auto
  margin_left := .unset
  margin_top := .unset
  margin_right := .unset
  margin_bottom := .unset
  padding_left := .unset
  padding_top := .unset
  padding_right := .unset
  padding_bottom := .unset
  border_left := .unset
  border_top := .unset
  border_right := .unset
  border_bottom := .unset
  position_left := .unset
  position_top := .unset
  position_right := .unset
  position_bottom := .unset
  width := .auto
  height := .auto
  min_width := .unset
  min_height := .unset
  max_width := .unset
  max_height := .unset
  flex_basis := .auto
  flex_grow := none
  flex_shrink := none
  aspect_ratio := none
  column_gap := .unset
  row_gap := .unset

/-- FFI `YogaEdgeValues`: four values for left/top/right/bottom. -/
structure YogaEdges where
  left : YogaValue
  top : YogaValue
  right : YogaValue
  bottom : YogaValue
  deriving DecidableEq

/-- FFI size pair `{width, height}` of `YogaValue`. -/
structure YogaSizeValues where
  width : YogaValue
  height : YogaValue
  deriving DecidableEq

/-- FFI `YogaStyle`, with the fields `apply_style` reads. -/
structure YogaStyle where
  display : YogaDisplay
  position_type : YogaPositionType
  overflow : YogaOverflow
  flex_direction : YogaFlexDirection
  flex_wrap : YogaWrap
  justify_content : YogaJustify
  align_items : YogaAlign
  align_content : YogaAlign
  align_self : YogaAlign
  margin : YogaEdges
  padding : YogaEdges
  border : YogaEdges
  inset : YogaEdges
  size : YogaSizeValues
  min_size : YogaSizeValues
  max_size : YogaSizeValues
  has_flex_basis : Bool
  flex_basis : YogaValue
  has_flex_grow : Bool
  flex_grow : YFloat
  has_flex_shrink : Bool
  flex_shrink : YFloat
  has_aspect_ratio : Bool
  aspect_ratio : YFloat
  gap : YogaSizeValues
  deriving DecidableEq

/-- `apply_edge_value` (lines 168-191).  `has_set_auto` records whether
a `set_auto` function pointer was supplied; when it is absent, Auto
falls through to `set_point(node, edge, YGUndefined)`.  The result is
the slot the chosen setter stores. -/
def apply_edge_value (has_set_auto : Bool) (value : YogaValue) : GVal :=
  match value.unit with
  | .percent => set_percent_val value.value
  | .point => set_point_val value.value
  | .auto => if has_set_auto then .auto else set_point_val .nan
  | .undefined => set_point_val .nan

/-- `apply_dimension` (lines 193-216): same shape as
`apply_edge_value` but for width/height style setters. -/
def apply_dimension (has_set_auto : Bool) (value : YogaValue) : GVal :=
  match value.unit with
  | .percent => set_percent_val value.value
  | .point => set_point_val value.value
  | .auto => if has_set_auto then .auto else set_point_val .nan
  | .undefined => set_point_val .nan

/-- `apply_style` (lines 218-302), as a function from the node's current
engine-side style `g` and the incoming `style` to the new engine-side
style.  Margins have an auto setter; padding, inset, min/max sizes do
not.  Border is set from the raw magnitude with no unit dispatch
(lines 247-250).  Flex grow/shrink are only written when their presence
flag is set; aspect ratio is reset to `YGUndefined` when unset; each gap
is only written when its unit is not Undefined (lines 295-301), using
the magnitude of `to_yg_value` through the point setter. -/
def apply_style (g : YGStyle) (style : YogaStyle) : YGStyle where
  display := to_yg_display style.display
  position_type := to_yg_position_type style.position_type
  overflow := to_yg_overflow style.overflow
  flex_direction := to_yg_flex_direction style.flex_direction
  flex_wrap := to_yg_wrap style.flex_wrap
  justify_content := to_yg_justify style.justify_content
  align_items := to_yg_align style.align_items
  align_content := to_yg_align style.align_content
  align_self := to_yg_align style.align_self
  margin_left := apply_edge_value true style.margin.left
  margin_top := apply_edge_value true style.margin.top
  margin_right := apply_edge_value true style.margin.right
  margin_bottom := apply_edge_value true style.margin.bottom
  padding_left := apply_edge_value false style.padding.left
  padding_top := apply_edge_value false style.padding.top
  padding_right := apply_edge_value false style.padding.right
  padding_bottom := apply_edge_value false style.padding.bottom
  border_left := set_point_val style.border.left.value
  border_top := set_point_val style.border.top.value
  border_right := set_point_val style.border.right.value
  border_bottom := set_point_val style.border.bottom.value
  position_left := apply_edge_value false style.inset.left
  position_top := apply_edge_value false style.inset.top
  position_right := apply_edge_value false style.inset.right
  position_bottom := apply_edge_value false style.inset.bottom
  width := apply_dimension true style.size.width
  height := apply_dimension true style.size.height
  min_width := apply_dimension false style.min_size.width
  min_height := apply_dimension false style.min_size.height
  max_width := apply_dimension false style.max_size.width
  max_height := apply_dimension false style.max_size.height
  flex_basis :=
    if style.has_flex_basis then apply_dimension true style.flex_basis
    else .auto
  flex_grow :=
    if style.has_flex_grow then set_float_opt style.flex_grow
    else g.flex_grow
  flex_shrink :=
    if style.has_flex_shrink then set_float_opt style.flex_shrink
    else g.flex_shrink
  aspect_ratio :=
    if style.has_aspect_ratio then set_float_opt style.aspect_ratio
    else set_float_opt .nan
  column_gap :=
    if style.gap.width.unit ≠ YogaValueUnit.undefined then
      set_point_val (to_yg_value style.gap.width).value
    else g.column_gap
  row_gap :=
    if style.gap.height.unit ≠ YogaValueUnit.undefined then
      set_point_val (to_yg_value style.gap.height).value
    else g.row_gap

/-- An all-undefined `YogaValue`, for building concrete test styles. -/
def unset_value : YogaValue := ⟨.num 0, .undefined⟩

/-- All-undefined edge set. -/
def unset_edges : YogaEdges := ⟨unset_value, unset_value, unset_value, unset_value⟩

/-- All-undefined size pair. -/
def unset_size : YogaSizeValues := ⟨unset_value, unset_value⟩

/-- A concrete baseline `YogaStyle`: everything undefined or unset. -/
def base_style : YogaStyle where
  display := .flex
  position_type := .relative
  overflow := .visible
  flex_direction := .column
  flex_wrap := .noWrap
  justify_content := .flexStart
  align_items := .stretch
  align_content := .flexStart
  align_self := .auto
  margin := unset_edges
  padding := unset_edges
  border := unset_edges
  inset := unset_edges
  size := unset_size
  min_size := unset_size
  max_size := unset_size
  has_flex_basis := false
  flex_basis := unset_value
  has_flex_grow := false
  flex_grow := .num 0
  has_flex_shrink := false
  flex_shrink := .num 0
  has_aspect_ratio := false
  aspect_ratio := .num 0
  gap := unset_size

/-! ### Concrete styles used by counterexamples and witnesses -/

/-- A style that sets flex-grow 5 and nothing else. -/
def c3_s1 : YogaStyle := { base_style with has_flex_grow := true, flex_grow := .num 5 }

/-- A style with every retained-field knob engaged: presence flags set
for flex-grow and flex-shrink, point gaps on both axes. -/
def c3_s2 : YogaStyle :=
  { base_style with
    has_flex_grow := true, flex_grow := .num 2
    has_flex_shrink := true, flex_shrink := .num 1
    gap := ⟨⟨.num 3, .point⟩, ⟨.num 4, .point⟩⟩ }

/-- Style with border-left `{5, Auto}`. -/
def c4_border_auto : YogaStyle :=
  { base_style with border := { unset_edges with left := ⟨.num 5, .auto⟩ } }

/-- Style with border-left `{5, Undefined}`. -/
def c4_border_undefined : YogaStyle :=
  { base_style with border := { unset_edges with left := ⟨.num 5, .undefined⟩ } }

/-- Style with gap width `{7, Auto}`. -/
def c5_gap_auto : YogaStyle :=
  { base_style with gap := { unset_size with width := ⟨.num 7, .auto⟩ } }

/-- Style with gap width `{7, Undefined}`. -/
def c5_gap_undefined : YogaStyle :=
  { base_style with gap := { unset_size with width := ⟨.num 7, .undefined⟩ } }

/-! ### The node store

Handles are raw pointers (`from_handle` on lines 14-16 is a
reinterpreting cast): raw value `0` resolves to the null pointer, which
every operation checks for; any other raw value is dereferenced without
validation.  We model addresses as `Nat`, a store as an ownership
forest of live nodes, and each operation as a function returning
`none` exactly when the C++ would dereference a non-null handle that
does not denote a live node — undefined behavior.

The forest is kept in first-child/next-sibling form: `node data
children siblings`.  A node's Yoga-side state is its address, the
optional measurement context (`MeasureContext` holds the `u64` id,
lines 141-143), whether a measure function is installed, the dirty
flag, the engine-side style and the cached layout. -/

/-- A cached layout result (`YogaLayout`): x, y, width, height. -/
structure YLayout where
  x : YFloat
  y : YFloat
  width : YFloat
  height : YFloat
  deriving DecidableEq

/-- The `{0.0f, 0.0f, 0.0f, 0.0f}` layout returned for a null handle
(`yoga_layout`, line 412). -/
def zero_layout : YLayout := ⟨.num 0, .num 0, .num 0, .num 0⟩

/-- Per-node Yoga state touched by the bridge. -/
structure NodeData where
  addr : Nat
  ctx : Option Nat
  has_measure_func : Bool
  dirty : Bool
  style : YGStyle
  layout : YLayout
  deriving DecidableEq

/-- An ownership forest of live nodes in first-child/next-sibling form:
`node data firstChildForest nextSiblingForest`. -/
inductive YForest where
  | nil : YForest
  | node : NodeData → YForest → YForest → YForest
  deriving DecidableEq

/-- All live addresses of a forest, in preorder. -/
def addrs : YForest → List Nat
  | .nil => []
  | .node d c s => d.addr :: (addrs c ++ addrs s)

/-- The attached-context id of a node, as a zero-or-one element list. -/
def ctx_of (d : NodeData) : List Nat := match d.ctx with | some i => [i] | none => []

/-- All attached measurement ids of a forest in preorder.  This is also
the trace of `yoga_drop_measure` calls `release_measure_recursive`
(lines 157-166) makes over the forest: the node's own context is
dropped first, then the children's, in order. -/
def ctx_ids : YForest → List Nat
  | .nil => []
  | .node d c s => ctx_of d ++ (ctx_ids c ++ ctx_ids s)

/-- `drop_measure_context` (lines 145-155) on one node: if a context is
attached, emit one `yoga_drop_measure(id)` notification and clear the
context; otherwise do nothing. -/
def drop_measure_context (d : NodeData) : NodeData × List Nat :=
  match d.ctx with
  | some i => ({ d with ctx := none }, [i])
  | none => (d, [])

/-- The node update performed by `yoga_set_measure` with a non-zero id
(lines 382-386): drop the old context, then install the new context and
the `measure_proxy` measure function. -/
def attach_measure (measure_id : Nat) (d : NodeData) : NodeData × List Nat :=
  let p := drop_measure_context d
  ({ p.1 with ctx := some measure_id, has_measure_func := true }, p.2)

/-- The node update shared by `yoga_clear_measure` (lines 394-395) and
`yoga_set_measure` with id 0 (lines 377-380): clear the measure
function, then drop the context. -/
def detach_measure (d : NodeData) : NodeData × List Nat :=
  drop_measure_context { d with has_measure_func := false }

/-- Apply a node update through an address (a pointer dereference):
every node whose address matches is updated.  In a well-formed store an
address occurs at most once. -/
def upd_forest (a : Nat) (g : NodeData → NodeData × List Nat) : YForest → YForest
  | .nil => .nil
  | .node d c s =>
    if d.addr = a then .node (g d).1 (upd_forest a g c) (upd_forest a g s)
    else .node d (upd_forest a g c) (upd_forest a g s)

/-- The `yoga_drop_measure` notifications emitted while applying a node
update through an address. -/
def upd_drops (a : Nat) (g : NodeData → NodeData × List Nat) : YForest → List Nat
  | .nil => []
  | .node d c s =>
    if d.addr = a then (g d).2 ++ (upd_drops a g c ++ upd_drops a g s)
    else upd_drops a g c ++ upd_drops a g s

/-- `yoga_free_node`'s effect on the store (lines 324-331): the subtree
rooted at the address is removed.  Modelled from the spec for the
`YGNodeFreeRecursive` primitive itself: destruction is recursive over
the owned subtree (§3). -/
def free_forest (a : Nat) : YForest → YForest
  | .nil => .nil
  | .node d c s =>
    if d.addr = a then free_forest a s
    else .node d (free_forest a c) (free_forest a s)

/-- The drop notifications `release_measure_recursive` (lines 157-166)
emits during `yoga_free_node`: one per attached context of the removed
subtree, the node's own context first, then the children's, in
preorder. -/
def free_drops (a : Nat) : YForest → List Nat
  | .nil => []
  | .node d c s =>
    if d.addr = a then ctx_ids (.node d c .nil) ++ free_drops a s
    else free_drops a c ++ free_drops a s

/-- Look a node up by address (first preorder match). -/
def node_at (a : Nat) : YForest → Option NodeData
  | .nil => none
  | .node d c s =>
    if d.addr = a then some d
    else
      match node_at a c with
      | some r => some r
      | none => node_at a s

/-- `yoga_free_node` (lines 324-331).  Null handle: no-op.  Live handle:
drop every context in the subtree, then remove it.  Dangling non-null
handle: undefined behavior (`none`). -/
def yoga_free_node (s : YForest) (h : Nat) : Option (YForest × List Nat) :=
  if h = 0 then some (s, [])
  else if h ∈ addrs s then some (free_forest h s, free_drops h s)
  else none

/-- `yoga_set_style` (lines 333-339): apply the incoming style to the
node's current engine-side style. -/
def yoga_set_style (s : YForest) (h : Nat) (style : YogaStyle) : Option YForest :=
  if h = 0 then some s
  else if h ∈ addrs s then
    some (upd_forest h (fun d => ({ d with style := apply_style d.style style }, [])) s)
  else none

/-- `yoga_mark_dirty` (lines 363-369). -/
def yoga_mark_dirty (s : YForest) (h : Nat) : Option YForest :=
  if h = 0 then some s
  else if h ∈ addrs s then
    some (upd_forest h (fun d => ({ d with dirty := true }, [])) s)
  else none

/-- `yoga_set_measure` (lines 371-387).  Id 0 removes the measure
function and drops any context; a non-zero id drops the old context and
installs the new one with the `measure_proxy` measure function.  The
second component is the trace of `yoga_drop_measure` calls. -/
def yoga_set_measure (s : YForest) (h : Nat) (measure_id : Nat) :
    Option (YForest × List Nat) :=
  if h = 0 then some (s, [])
  else if h ∈ addrs s then
    if measure_id = 0 then
      some (upd_forest h detach_measure s, upd_drops h detach_measure s)
    else
      some (upd_forest h (attach_measure measure_id) s,
        upd_drops h (attach_measure measure_id) s)
  else none

/-- `yoga_clear_measure` (lines 389-396). -/
def yoga_clear_measure (s : YForest) (h : Nat) : Option (YForest × List Nat) :=
  if h = 0 then some (s, [])
  else if h ∈ addrs s then
    some (upd_forest h detach_measure s, upd_drops h detach_measure s)
  else none

/-- `yoga_layout` (lines 409-421): the zero layout for a null handle,
the node's cached layout for a live one, undefined behavior for a
dangling one. -/
def yoga_layout (s : YForest) (h : Nat) : Option YLayout :=
  if h = 0 then some zero_layout
  else
    match node_at h s with
    | some d => some d.layout
    | none => none

/-! ### Measurement bridge -/

/-- Engine `YGMeasureMode`. -/
inductive YGMeasureMode where
  | undefined
  | exactly
  | atMost
  deriving DecidableEq

/-- FFI `YogaMeasureMode`; shares its numeric values with
`YGMeasureMode`. -/
inductive YogaMeasureMode where
  | undefined
  | exactly
  | atMost
  deriving DecidableEq

/-- The `static_cast<YogaMeasureMode>` in `measure_proxy`: the identity
on the shared numeric representation. -/
def cast_measure_mode : YGMeasureMode → YogaMeasureMode
  | .undefined => .undefined
  | .exactly => .exactly
  | .atMost => .atMost

/-- FFI `YogaMeasureInput`: a constraint value and its mode. -/
structure YogaMeasureInput where
  value : YFloat
  mode : YogaMeasureMode
  deriving DecidableEq

/-- FFI `YogaSize`. -/
structure YogaSize where
  width : YFloat
  height : YFloat
  deriving DecidableEq

/-- `measure_proxy` (lines 304-316), parametrized by the external
`yoga_measure` collaborator: with no attached context it returns
`{0, 0}`; otherwise it forwards the stored id and the packed
constraints and returns the collaborator's answer unchanged. -/
def measure_proxy (yoga_measure : Nat → YogaMeasureInput → YogaMeasureInput → YogaSize)
    (ctx : Option Nat) (width : YFloat) (width_mode : YGMeasureMode)
    (height : YFloat) (height_mode : YGMeasureMode) : YogaSize :=
  match ctx with
  | none => ⟨.num 0, .num 0⟩
  | some id =>
    yoga_measure id ⟨width, cast_measure_mode width_mode⟩
      ⟨height, cast_measure_mode height_mode⟩

/-! ### Layout invocation -/

/-- FFI `YogaAvailableDimensionKind`. -/
inductive YogaAvailableDimensionKind where
  | definite
  | unconstrained
  deriving DecidableEq

/-- FFI `YogaAvailableDimension`. -/
structure YogaAvailableDimension where
  kind : YogaAvailableDimensionKind
  value : YFloat
  deriving DecidableEq

/-- FFI `YogaAvailableSize`. -/
structure YogaAvailableSize where
  width : YogaAvailableDimension
  height : YogaAvailableDimension
  deriving DecidableEq

/-- `value_or_undefined` (lines 135-139). -/
def value_or_undefined (dimension : YogaAvailableDimension) : YFloat :=
  match dimension.kind with
  | .definite => dimension.value
  | .unconstrained => .nan

/-- The solver-relevant projection of a node: address, measurement
state and style — everything except the cached layout and dirty flag. -/
structure PNodeData where
  addr : Nat
  ctx : Option Nat
  has_measure_func : Bool
  style : YGStyle
  deriving DecidableEq

/-- Solver-relevant projection of a forest. -/
inductive PForest where
  | nil : PForest
  | node : PNodeData → PForest → PForest → PForest
  deriving DecidableEq

/-- Project one node's solver-relevant state. -/
def project_node (d : NodeData) : PNodeData := ⟨d.addr, d.ctx, d.has_measure_func, d.style⟩

/-- Project a forest's solver-relevant state. -/
def project : YForest → PForest
  | .nil => .nil
  | .node d c s => .node (project_node d) (project c) (project s)

/-- The subtree rooted at an address: the node with its children and no
siblings. -/
def subtree_at (a : Nat) : YForest → Option YForest
  | .nil => none
  | .node d c s =>
    if d.addr = a then some (.node d c .nil)
    else
      match subtree_at a c with
      | some t => some t
      | none => subtree_at a s

/-- Write a solved layout into one node's cache and clear its dirty
flag. -/
def write_layout (f : Nat → YLayout) (d : NodeData) : NodeData :=
  { d with layout := f d.addr, dirty := false }

/-- Write solved layouts into every node of a forest. -/
def write_layouts_all (f : Nat → YLayout) : YForest → YForest
  | .nil => .nil
  | .node d c s => .node (write_layout f d) (write_layouts_all f c) (write_layouts_all f s)

/-- Write solved layouts into the subtree rooted at an address. -/
def write_layouts_at (a : Nat) (f : Nat → YLayout) : YForest → YForest
  | .nil => .nil
  | .node d c s =>
    if d.addr = a then .node (write_layout f d) (write_layouts_all f c) s
    else .node d (write_layouts_at a f c) (write_layouts_at a f s)

/-- `yoga_calculate_layout` (lines 398-407), parametrized by the
solver.  Modelled from the spec for `YGNodeCalculateLayout` itself,
which is not part of the bridge source: the engine is "a pure,
synchronous geometry solver over an explicit tree" (§1) that
"recomputes geometry for the root and its entire subtree, writing
results into each node's cached Layout" (§4.4), so the solver is a
function of the subtree's solver-relevant state (styles, structure,
measurement attachment — not cached layouts or dirty flags, whose
caching role "must not change results", §4.4) and the two available
dimensions translated by `value_or_undefined`. -/
def yoga_calculate_layout (solve : PForest → YFloat → YFloat → Nat → YLayout)
    (s : YForest) (h : Nat) (available : YogaAvailableSize) : Option YForest :=
  if h = 0 then some s
  else
    match subtree_at h s with
    | none => none
    | some t =>
        some (write_layouts_at h
          (solve (project t) (value_or_undefined available.width)
            (value_or_undefined available.height)) s)

/-! ### Operation sequences for the measurement-release invariant -/

/-- The operations claim C2 quantifies over. -/
inductive MOp where
  | setM (h measure_id : Nat)
  | clearM (h : Nat)
  | freeN (h : Nat)
  deriving DecidableEq

/-- One operation step: the new store, the `yoga_drop_measure` trace,
and the list of measurement ids that were installed (one per successful
non-zero `yoga_set_measure` on a live node). -/
def step (s : YForest) : MOp → Option (YForest × List Nat × List Nat)
  | .setM h measure_id =>
    match yoga_set_measure s h measure_id with
    | none => none
    | some (s', ds) =>
        some (s', ds, if h = 0 then [] else if measure_id = 0 then [] else [measure_id])
  | .clearM h =>
    match yoga_clear_measure s h with
    | none => none
    | some p => some (p.1, p.2, [])
  | .freeN h =>
    match yoga_free_node s h with
    | none => none
    | some p => some (p.1, p.2, [])

/-- Run a sequence of operations, concatenating the drop and attach
traces. -/
def run (s : YForest) : List MOp → Option (YForest × List Nat × List Nat)
  | [] => some (s, [], [])
  | op :: ops =>
    match step s op with
    | none => none
    | some (s1, ds1, as1) =>
      match run s1 ops with
      | none => none
      | some (s2, ds2, as2) => some (s2, ds1 ++ ds2, as1 ++ as2)

/-- A well-formed store: pairwise-distinct node addresses (distinct heap
pointers) and no node at the null address. -/
def WF (s : YForest) : Prop := (addrs s).Nodup ∧ 0 ∉ addrs s

/-! ### Flat child-graph model for `yoga_set_children`

Child-list surgery relinks nodes across the forest and — absent any
cycle check — can create a node that is its own ancestor, which an
ownership forest cannot even represent.  So `yoga_set_children` is
modelled on a flat view of the node graph: a store of per-node
child-pointer lists and owner back-pointer. -/

/-- Flat per-node link state: the ordered child list and the owner. -/
structure FNode where
  children : List Nat
  owner : Option Nat
  deriving DecidableEq

/-- A flat store: association list from address to link state. -/
abbrev FStore := List (Nat × FNode)

/-- Read a node's link state through its address. -/
def fget (a : Nat) : FStore → Option FNode
  | [] => none
  | e :: s => if e.1 = a then some e.2 else fget a s

/-- Write a node's link state through its address (no-op when the
address is not live). -/
def fset (a : Nat) (n : FNode) : FStore → FStore
  | [] => []
  | e :: s => if e.1 = a then (a, n) :: fset a n s else e :: fset a n s

/-- `YGNode::setOwner`.  Modelled from the spec: re-parenting updates
the child's single owner link (§3 "a node has exactly one parent at a
time"). -/
def set_owner (c : Nat) (o : Option Nat) (s : FStore) : FStore :=
  match fget c s with
  | none => s
  | some n => fset c { n with owner := o } s

/-- Set the owner of each listed node in turn. -/
def set_owner_all (cs : List Nat) (o : Option Nat) (s : FStore) : FStore :=
  match cs with
  | [] => s
  | c :: rest => set_owner_all rest o (set_owner c o s)

/-- `YGNodeRemoveAllChildren`.  Modelled from the spec: an empty list
clears the children (§4.2), and nodes removed from a list are detached,
not destroyed (§3). -/
def remove_all_children (p : Nat) (s : FStore) : FStore :=
  match fget p s with
  | none => s
  | some n => set_owner_all n.children none (fset p { n with children := [] } s)

/-- `YGNodeSetChildren`.  Modelled from the spec: wholesale replacement
of the child list (§3, §4.2) — previous children absent from the new
list are detached (owner cleared), the parent's list becomes exactly
the given list, and each new child's owner becomes the parent.  No
cycle check appears in the spec's operational description or in the
bridge. -/
def yg_set_children_prim (p : Nat) (refs : List Nat) (s : FStore) : FStore :=
  match fget p s with
  | none => s
  | some n =>
    let s1 := set_owner_all (n.children.filter (fun c => !refs.contains c)) none s
    let s2 :=
      match fget p s1 with
      | none => s1
      | some n1 => fset p { n1 with children := refs } s1
    set_owner_all refs (some p) s2

/-- `yoga_set_children` (lines 341-361): null parent handle is a no-op;
a live parent either clears all children (empty slice) or replaces the
child list wholesale; a dangling parent handle is undefined behavior. -/
def yoga_set_children (s : FStore) (parent : Nat) (children : List Nat) :
    Option FStore :=
  if parent = 0 then some s
  else if (fget parent s).isSome then
    if children = [] then some (remove_all_children parent s)
    else some (yg_set_children_prim parent children s)
  else none

/-! ### Concrete stores for counterexamples and witnesses -/

/-- A store holding one measurement-free node at address 1. -/
def one_node_store : YForest :=
  .node ⟨1, none, false, false, yg_default_style, zero_layout⟩ .nil .nil

/-- A store with a root at address 1 whose only child, address 2,
carries measurement id 7. -/
def parent_child_store : YForest :=
  .node ⟨1, none, false, false, yg_default_style, zero_layout⟩
    (.node ⟨2, some 7, true, false, yg_default_style, zero_layout⟩ .nil .nil)
    .nil

/-- A flat store holding a childless node at address 1. -/
def c6_store : FStore := [(1, ⟨[], none⟩)]

/-- A flat store: parent 1 with child 2, and a detached node 3. -/
def c8_store : FStore := [(1, ⟨[2], none⟩), (2, ⟨[], some 1⟩), (3, ⟨[], none⟩)]

/-- `c8_store` after `yoga_set_children 1 [3]`: node 1's children are
exactly `[3]`, node 2 is detached but alive, node 3 is owned by 1. -/
def c8_after : FStore := [(1, ⟨[3], none⟩), (2, ⟨[], none⟩), (3, ⟨[], some 1⟩)]

/-- A concrete measurement collaborator for witnesses. -/
def c9_measure : Nat → YogaMeasureInput → YogaMeasureInput → YogaSize :=
  fun _ wi hi => ⟨wi.value, hi.value⟩

/-- `parent_child_store` after `yoga_set_measure 2 9`: the child now
carries id 9. -/
def c9_after : YForest :=
  .node ⟨1, none, false, false, yg_default_style, zero_layout⟩
    (.node ⟨2, some 9, true, false, yg_default_style, zero_layout⟩ .nil .nil)
    .nil

/-- A concrete solver for witnesses: every node gets the available size
as its rectangle. -/
def c7_solve : PForest → YFloat → YFloat → Nat → YLayout :=
  fun _ w hh _ => ⟨.num 0, .num 0, w, hh⟩

/-- A concrete 300×100 available size. -/
def c7_avail : YogaAvailableSize :=
  ⟨⟨.definite, .num 300⟩, ⟨.definite, .num 100⟩⟩

/-- `one_node_store` after one `yoga_calculate_layout` with `c7_solve`
at 300×100. -/
def c7_after : YForest :=
  .node ⟨1, none, false, false, yg_default_style,
    ⟨.num 0, .num 0, .num 300, .num 100⟩⟩ .nil .nil

/-! ## Theorems -/

/-! ### Helper lemmas for the measurement-release invariant -/

/-- `attach_measure` preserves the node's address. -/
theorem attach_addr (measure_id : Nat) (d : NodeData) :
    (attach_measure measure_id d).1.addr = d.addr := by
  rcases d with ⟨ad, ctx, mf, dt, st, ly⟩
  cases ctx <;> rfl

/-- `detach_measure` preserves the node's address. -/
theorem detach_addr (d : NodeData) : (detach_measure d).1.addr = d.addr := by
  rcases d with ⟨ad, ctx, mf, dt, st, ly⟩
  cases ctx <;> rfl

/-- An address-preserving node update leaves the live addresses
unchanged. -/
theorem upd_forest_addrs (a : Nat) (g : NodeData → NodeData × List Nat)
    (hg : ∀ d, (g d).1.addr = d.addr) (s : YForest) :
    addrs (upd_forest a g s) = addrs s := by
  induction s with
  | nil => rfl
  | node d c sb ihc ihs =>
    by_cases hd : d.addr = a
    · simp [upd_forest, hd, addrs, hg, ihc, ihs]
    · simp [upd_forest, hd, addrs, ihc, ihs]

/-- Counting balance of an attach update: the drops plus the remaining
attachments of id `v` equal the prior attachments, plus one fresh
attachment of the new id per matched node. -/
theorem upd_attach_count (a measure_id v : Nat) (s : YForest) :
    (upd_drops a (attach_measure measure_id) s).count v
      + (ctx_ids (upd_forest a (attach_measure measure_id) s)).count v
      = (ctx_ids s).count v
        + (addrs s).count a * (if measure_id = v then 1 else 0) := by
  have hnode : ∀ d : NodeData,
      ((attach_measure measure_id d).2).count v
        + (ctx_of (attach_measure measure_id d).1).count v
      = (ctx_of d).count v + (if measure_id = v then 1 else 0) := by
    intro d
    rcases d with ⟨ad, ctx, mf, dt, st, ly⟩
    by_cases hv : measure_id = v <;>
      cases ctx <;>
        simp [attach_measure, drop_measure_context, ctx_of, hv, List.count_cons]
  by_cases hv : measure_id = v
  · simp only [hv, eq_self_iff_true, if_true, Nat.mul_one] at hnode ⊢
    induction s with
    | nil => simp [upd_forest, upd_drops, ctx_ids, addrs]
    | node d c sb ihc ihs =>
      have h1 := hnode d
      by_cases hd : d.addr = a <;>
        simp [upd_forest, upd_drops, ctx_ids, addrs, hd, List.count_append,
          List.count_cons, beq_iff_eq] <;>
        omega
  · simp only [hv, if_false, Nat.mul_zero, Nat.add_zero] at hnode ⊢
    induction s with
    | nil => simp [upd_forest, upd_drops, ctx_ids, addrs]
    | node d c sb ihc ihs =>
      have h1 := hnode d
      by_cases hd : d.addr = a <;>
        simp [upd_forest, upd_drops, ctx_ids, addrs, hd, List.count_append,
          List.count_cons, beq_iff_eq] <;>
        omega

/-- Counting balance of a detach update: drops plus remaining
attachments equal the prior attachments. -/
theorem upd_detach_count (a v : Nat) (s : YForest) :
    (upd_drops a detach_measure s).count v
      + (ctx_ids (upd_forest a detach_measure s)).count v
      = (ctx_ids s).count v := by
  have hnode : ∀ d : NodeData,
      ((detach_measure d).2).count v + (ctx_of (detach_measure d).1).count v
        = (ctx_of d).count v := by
    intro d
    rcases d with ⟨ad, ctx, mf, dt, st, ly⟩
    cases ctx <;> simp [detach_measure, drop_measure_context, ctx_of]
  induction s with
  | nil => simp [upd_forest, upd_drops, ctx_ids]
  | node d c sb ihc ihs =>
    have h1 := hnode d
    by_cases hd : d.addr = a <;>
      simp [upd_forest, upd_drops, ctx_ids, hd, List.count_append] <;>
      omega

/-- Counting balance of subtree destruction: the drops emitted by
`release_measure_recursive` plus the attachments that survive equal the
prior attachments. -/
theorem free_count (a v : Nat) (s : YForest) :
    (free_drops a s).count v + (ctx_ids (free_forest a s)).count v
      = (ctx_ids s).count v := by
  induction s with
  | nil => simp [free_forest, free_drops, ctx_ids]
  | node d c sb ihc ihs =>
    by_cases hd : d.addr = a <;>
      simp [free_forest, free_drops, ctx_ids, hd, List.count_append] <;>
      omega

/-- Destruction removes a sublist of the live addresses. -/
theorem free_forest_addrs_sublist (a : Nat) (s : YForest) :
    List.Sublist (addrs (free_forest a s)) (addrs s) := by
  induction s with
  | nil => simp [free_forest, addrs]
  | node d c sb ihc ihs =>
    by_cases hd : d.addr = a
    · simp only [free_forest, hd, if_pos rfl, addrs]
      exact (ihs.trans (List.sublist_append_right _ _)).trans
        (List.sublist_cons_self _ _)
    · simp only [free_forest, hd, if_neg hd, addrs]
      exact (ihc.append ihs).cons₂ _

/-- One step preserves well-formedness and the per-id release balance:
for every id `v`, the ids attached by the step plus the prior
attachments equal the drops plus the remaining attachments. -/
theorem step_wf_count (s : YForest) (op : MOp) (s' : YForest) (ds as : List Nat)
    (hWF : WF s) (hstep : step s op = some (s', ds, as)) :
    WF s' ∧ ∀ v, as.count v + (ctx_ids s).count v
      = ds.count v + (ctx_ids s').count v := by
  cases op with
  | setM h measure_id =>
    simp only [step] at hstep
    by_cases h0 : h = 0
    · simp [yoga_set_measure, h0] at hstep
      obtain ⟨rfl, rfl, rfl⟩ := hstep
      exact ⟨hWF, fun v => by simp⟩
    · by_cases hmem : h ∈ addrs s
      · by_cases hid : measure_id = 0
        · simp [yoga_set_measure, h0, hmem, hid] at hstep
          obtain ⟨rfl, rfl, rfl⟩ := hstep
          refine ⟨⟨?_, ?_⟩, fun v => ?_⟩
          · rw [upd_forest_addrs h detach_measure detach_addr]; exact hWF.1
          · rw [upd_forest_addrs h detach_measure detach_addr]; exact hWF.2
          · have := upd_detach_count h v s
            simp only [List.count_nil]
            omega
        · simp [yoga_set_measure, h0, hmem, hid] at hstep
          obtain ⟨rfl, rfl, rfl⟩ := hstep
          refine ⟨⟨?_, ?_⟩, fun v => ?_⟩
          · rw [upd_forest_addrs h (attach_measure measure_id)
              (attach_addr measure_id)]
            exact hWF.1
          · rw [upd_forest_addrs h (attach_measure measure_id)
              (attach_addr measure_id)]
            exact hWF.2
          · have hbal := upd_attach_count h measure_id v s
            have hocc : (addrs s).count h = 1 :=
              List.count_eq_one_of_mem hWF.1 hmem
            rw [hocc] at hbal
            by_cases hv : measure_id = v <;>
              simp [hv, List.count_cons] at hbal ⊢ <;> omega
      · simp [yoga_set_measure, h0, hmem] at hstep
  | clearM h =>
    simp only [step] at hstep
    by_cases h0 : h = 0
    · simp [yoga_clear_measure, h0] at hstep
      obtain ⟨rfl, rfl, rfl⟩ := hstep
      exact ⟨hWF, fun v => by simp⟩
    · by_cases hmem : h ∈ addrs s
      · simp [yoga_clear_measure, h0, hmem] at hstep
        obtain ⟨rfl, rfl, rfl⟩ := hstep
        refine ⟨⟨?_, ?_⟩, fun v => ?_⟩
        · rw [upd_forest_addrs h detach_measure detach_addr]; exact hWF.1
        · rw [upd_forest_addrs h detach_measure detach_addr]; exact hWF.2
        · have := upd_detach_count h v s
          simp only [List.count_nil]
          omega
      · simp [yoga_clear_measure, h0, hmem] at hstep
  | freeN h =>
    simp only [step] at hstep
    by_cases h0 : h = 0
    · simp [yoga_free_node, h0] at hstep
      obtain ⟨rfl, rfl, rfl⟩ := hstep
      exact ⟨hWF, fun v => by simp⟩
    · by_cases hmem : h ∈ addrs s
      · simp [yoga_free_node, h0, hmem] at hstep
        obtain ⟨rfl, rfl, rfl⟩ := hstep
        refine ⟨⟨?_, ?_⟩, fun v => ?_⟩
        · exact hWF.1.sublist (free_forest_addrs_sublist h s)
        · intro hc
          exact hWF.2 ((free_forest_addrs_sublist h s).subset hc)
        · have := free_count h v s
          simp only [List.count_nil]
          omega
      · simp [yoga_free_node, h0, hmem] at hstep


/-! ### C2 — measurement-release balance -/
/-- C2: over every finite sequence of `yoga_set_measure`,
`yoga_clear_measure` and `yoga_free_node` operations on a well-formed
store, and for every measurement id `v`, the number of times `v` is
installed during the run plus the number of nodes initially holding `v`
equals the number of `yoga_drop_measure v` notifications plus the
number of nodes still holding `v` at the end.  Each attachment of an id
is therefore released exactly once when it is replaced, cleared, or
destroyed with its subtree, and never released twice. -/
theorem measure_release_balance (ops : List MOp) (s : YForest) (hWF : WF s)
    (s' : YForest) (ds as : List Nat)
    (hrun : run s ops = some (s', ds, as)) (v : Nat) :
    as.count v + (ctx_ids s).count v = ds.count v + (ctx_ids s').count v := by
  induction ops generalizing s s' ds as with
  | nil =>
    simp [run] at hrun
    obtain ⟨rfl, rfl, rfl⟩ := hrun
    simp
  | cons op ops ih =>
    simp only [run] at hrun
    cases hstep : step s op with
    | none => rw [hstep] at hrun; simp at hrun
    | some p =>
      obtain ⟨s1, ds1, as1⟩ := p
      rw [hstep] at hrun
      dsimp only at hrun
      cases hrun2 : run s1 ops with
      | none => rw [hrun2] at hrun; simp at hrun
      | some q =>
        obtain ⟨s2, ds2, as2⟩ := q
        rw [hrun2] at hrun
        simp only [Option.some.injEq, Prod.mk.injEq] at hrun
        obtain ⟨rfl, rfl, rfl⟩ := hrun
        obtain ⟨hWF1, hcnt1⟩ := step_wf_count s op s1 ds1 as1 hWF hstep
        have h1 := hcnt1 v
        have h2 := ih s1 hWF1 s2 ds2 as2 hrun2
        simp only [List.count_append]
        omega

/-- Witness for the C2 theorem: attaching id 9 over id 7 on the child
and then destroying the whole tree yields drops `[7, 9]` and the
balance holds for id 7. -/
theorem measure_release_balance_witness :
    WF parent_child_store ∧
    run parent_child_store [MOp.setM 2 9, MOp.freeN 1] =
      some (YForest.nil, [7, 9], [9]) ∧
    ([9] : List Nat).count 7 + (ctx_ids parent_child_store).count 7 =
      ([7, 9] : List Nat).count 7 + (ctx_ids YForest.nil).count 7 :=
  ⟨⟨by decide, by decide⟩, by decide,
    measure_release_balance [MOp.setM 2 9, MOp.freeN 1] parent_child_store
      ⟨by decide, by decide⟩ YForest.nil [7, 9] [9] (by decide) 7⟩

/-! ### C3 — style replacement is not wholesale for every field -/

/-- C3 counterexample: applying a style with flex-grow 5 and then a
style whose flex-grow presence flag is unset leaves flex-grow 5 in the
effective style, so the result differs from applying the second style
alone to a fresh node.  The claim's wholesale-replacement equation fails
at this input. -/
theorem set_style_not_wholesale_cex :
    apply_style (apply_style yg_default_style c3_s1) base_style ≠
      apply_style yg_default_style base_style := by
  decide

/-- C3 (amended): `yoga_set_style` replaces the effective style
wholesale except for flex-grow and flex-shrink (retained when the
incoming presence flag is unset) and the two gap values (retained when
the incoming unit is Undefined).  When the second style sets both
presence flags and both gap units, two successive applications equal a
single application of the second style from any starting state. -/
theorem set_style_wholesale_modulo_retained_fields (g : YGStyle)
    (s1 s2 : YogaStyle)
    (hg : s2.has_flex_grow = true) (hs : s2.has_flex_shrink = true)
    (hw : s2.gap.width.unit ≠ YogaValueUnit.undefined)
    (hh : s2.gap.height.unit ≠ YogaValueUnit.undefined) :
    apply_style (apply_style g s1) s2 = apply_style g s2 := by
  simp [apply_style, hg, hs, hw, hh]

/-- Witness for the amended C3 theorem at concrete styles. -/
theorem set_style_wholesale_witness :
    c3_s2.has_flex_grow = true ∧ c3_s2.has_flex_shrink = true ∧
    c3_s2.gap.width.unit ≠ YogaValueUnit.undefined ∧
    c3_s2.gap.height.unit ≠ YogaValueUnit.undefined ∧
    apply_style (apply_style yg_default_style c3_s1) c3_s2 =
      apply_style yg_default_style c3_s2 :=
  ⟨rfl, rfl, by decide, by decide,
    set_style_wholesale_modulo_retained_fields yg_default_style c3_s1 c3_s2
      rfl rfl (by decide) (by decide)⟩

/-! ### C4 — Auto degrades to Undefined, except that border ignores units -/

/-- C4 counterexample: a border edge given `{5, Auto}` produces the same
effective style as `{5, Undefined}`, but the magnitude 5 is applied as
the border width (both units are ignored by `YGNodeStyleSetBorder`),
instead of the border being left unset, so the claim's "rather than
applying the magnitude" fails on border edges. -/
theorem auto_border_applies_magnitude_cex :
    ¬((apply_style yg_default_style c4_border_auto =
          apply_style yg_default_style c4_border_undefined) ∧
      (apply_style yg_default_style c4_border_auto).border_left =
        yg_default_style.border_left) := by
  decide

/-- C4 (amended): for padding and inset edges (which pass no auto
setter), a value with unit Auto is applied exactly like the identical
value with unit Undefined, and leaves the property unset; border edges
bypass unit dispatch entirely and always store the raw magnitude, for
Auto and Undefined alike. -/
theorem auto_edge_degrades_except_border :
    (∀ m : YFloat,
      apply_edge_value false ⟨m, .auto⟩ = apply_edge_value false ⟨m, .undefined⟩ ∧
      apply_edge_value false ⟨m, .auto⟩ = GVal.unset) ∧
    (∀ (g : YGStyle) (s : YogaStyle),
      ((apply_style g s).padding_left = apply_edge_value false s.padding.left ∧
       (apply_style g s).padding_top = apply_edge_value false s.padding.top ∧
       (apply_style g s).padding_right = apply_edge_value false s.padding.right ∧
       (apply_style g s).padding_bottom = apply_edge_value false s.padding.bottom) ∧
      ((apply_style g s).position_left = apply_edge_value false s.inset.left ∧
       (apply_style g s).position_top = apply_edge_value false s.inset.top ∧
       (apply_style g s).position_right = apply_edge_value false s.inset.right ∧
       (apply_style g s).position_bottom = apply_edge_value false s.inset.bottom) ∧
      ((apply_style g s).border_left = set_point_val s.border.left.value ∧
       (apply_style g s).border_top = set_point_val s.border.top.value ∧
       (apply_style g s).border_right = set_point_val s.border.right.value ∧
       (apply_style g s).border_bottom = set_point_val s.border.bottom.value)) :=
  ⟨fun _ => ⟨rfl, rfl⟩,
   fun _ _ => ⟨⟨rfl, rfl, rfl, rfl⟩, ⟨rfl, rfl, rfl, rfl⟩, ⟨rfl, rfl, rfl, rfl⟩⟩⟩

/-! ### C5 — Auto gap is applied as zero points, not left unset -/

/-- C5 counterexample: on a fresh node, gap width `{7, Auto}` sets the
column gap to zero points (`to_yg_value` maps Auto to magnitude 0 and
the guard only skips the Undefined unit), whereas `{7, Undefined}`
leaves the column gap unset — so Auto does not behave like Undefined. -/
theorem auto_gap_not_unset_cex :
    (apply_style yg_default_style c5_gap_auto).column_gap ≠
      (apply_style yg_default_style c5_gap_undefined).column_gap := by
  decide

/-- C5 (amended): the gap translation per unit: Point and Percent apply
the magnitude through the point setter (a percent gap is applied as
points), Auto applies zero points, and only Undefined leaves the gap
slot unchanged (unset on a fresh node). -/
theorem gap_unit_translation (g : YGStyle) (s : YogaStyle) :
    ((apply_style g s).column_gap =
      match s.gap.width with
      | ⟨_, .undefined⟩ => g.column_gap
      | ⟨_, .auto⟩ => GVal.points 0
      | ⟨v, .point⟩ => set_point_val v
      | ⟨v, .percent⟩ => set_point_val v) ∧
    ((apply_style g s).row_gap =
      match s.gap.height with
      | ⟨_, .undefined⟩ => g.row_gap
      | ⟨_, .auto⟩ => GVal.points 0
      | ⟨v, .point⟩ => set_point_val v
      | ⟨v, .percent⟩ => set_point_val v) := by
  constructor
  · rcases h : s.gap.width with ⟨v, u⟩
    cases u <;> simp [apply_style, h, to_yg_value, set_point_val]
  · rcases h : s.gap.height with ⟨v, u⟩
    cases u <;> simp [apply_style, h, to_yg_value, set_point_val]

/-! ### C1 — null handles are no-ops; dangling handles are not detected -/

/-- C1 counterexample: in a store holding only address 1, the non-null
handle 2 does not resolve to a live node, yet `yoga_mark_dirty`
dereferences it — undefined behavior (`none`), not a defined no-op —
and `yoga_layout` likewise has no defined result instead of returning
the zero layout the claim promises. -/
theorem dead_handle_not_noop_cex :
    yoga_mark_dirty one_node_store 2 = none ∧
    yoga_layout one_node_store 2 = none :=
  ⟨rfl, rfl⟩

/-- C1 (amended): a null handle (raw value 0) is a defined no-op for
every operation of the handle layer, and `yoga_layout` returns
`{0,0,0,0}` for it; the code validates only nullness
(`from_handle` plus the `if (!node)` guards), so the guarantee does not
extend to non-null handles of destroyed or never-created nodes, whose
dereference is undefined behavior. -/
theorem null_handle_noop (s : YForest) (fs : FStore) (style : YogaStyle)
    (measure_id : Nat) (children : List Nat)
    (solve : PForest → YFloat → YFloat → Nat → YLayout)
    (available : YogaAvailableSize) :
    yoga_free_node s 0 = some (s, []) ∧
    yoga_set_style s 0 style = some s ∧
    yoga_set_children fs 0 children = some fs ∧
    yoga_mark_dirty s 0 = some s ∧
    yoga_set_measure s 0 measure_id = some (s, []) ∧
    yoga_clear_measure s 0 = some (s, []) ∧
    yoga_calculate_layout solve s 0 available = some s ∧
    yoga_layout s 0 = some zero_layout :=
  ⟨rfl, rfl, rfl, rfl, rfl, rfl, rfl, rfl⟩

/-! ### Helper lemmas for the measurement proxy (C9) -/

/-- A live address has a node. -/
theorem node_at_of_mem (a : Nat) (s : YForest) (h : a ∈ addrs s) :
    (node_at a s).isSome := by
  induction s with
  | nil => simp [addrs] at h
  | node d c sb ihc ihs =>
    by_cases hd : d.addr = a
    · simp [node_at, hd]
    · simp only [addrs, List.mem_cons, List.mem_append] at h
      rcases h with h | h | h
      · exact absurd h.symm hd
      · have := ihc h
        simp only [node_at, if_neg hd]
        cases hc : node_at a c with
        | some r => simp
        | none => rw [hc] at this; simp at this
      · have h2 := ihs h
        simp only [node_at, if_neg hd]
        cases hc : node_at a c with
        | some r => simp
        | none => simpa using h2

/-- An address-preserving node update rewrites exactly the node the
lookup finds. -/
theorem node_at_upd_forest (a : Nat) (g : NodeData → NodeData × List Nat)
    (hg : ∀ d, (g d).1.addr = d.addr) (s : YForest) :
    node_at a (upd_forest a g s) = (node_at a s).map (fun d => (g d).1) := by
  induction s with
  | nil => rfl
  | node d c sb ihc ihs =>
    by_cases hd : d.addr = a
    · simp [upd_forest, node_at, hd, hg]
    · have hga : ¬ d.addr = a := hd
      simp only [upd_forest, if_neg hd, node_at, if_neg hga]
      rw [ihc, ihs]
      cases node_at a c <;> simp

/-- After an attach the node holds exactly the new id. -/
theorem attach_ctx (measure_id : Nat) (d : NodeData) :
    (attach_measure measure_id d).1.ctx = some measure_id := by
  rcases d with ⟨ad, ctx, mf, dt, st, ly⟩
  cases ctx <;> rfl

/-! ### C9 — the measurement id and constraints cross the proxy unchanged -/

/-- C9: after `yoga_set_measure` installs a non-zero id on a live node,
the node's context holds exactly that id, and `measure_proxy` invoked
on that context forwards the id together with the packed constraint
values and modes to the external `yoga_measure` collaborator and
returns its answer unchanged; with no context attached, the proxy
returns `{0, 0}`. -/
theorem measure_id_passed_unchanged
    (yoga_measure : Nat → YogaMeasureInput → YogaMeasureInput → YogaSize)
    (s s' : YForest) (h v : Nat) (ds : List Nat)
    (h0 : h ≠ 0) (hv : v ≠ 0)
    (hset : yoga_set_measure s h v = some (s', ds))
    (w hgt : YFloat) (wm hm : YGMeasureMode) :
    (∃ d, node_at h s' = some d ∧ d.ctx = some v ∧
      measure_proxy yoga_measure d.ctx w wm hgt hm =
        yoga_measure v ⟨w, cast_measure_mode wm⟩ ⟨hgt, cast_measure_mode hm⟩) ∧
    measure_proxy yoga_measure none w wm hgt hm = ⟨.num 0, .num 0⟩ := by
  constructor
  · by_cases hmem : h ∈ addrs s
    · simp [yoga_set_measure, h0, hmem, hv] at hset
      obtain ⟨rfl, rfl⟩ := hset
      rw [node_at_upd_forest h (attach_measure v) (attach_addr v) s]
      have hs := node_at_of_mem h s hmem
      cases hn : node_at h s with
      | none => rw [hn] at hs; simp at hs
      | some d =>
        refine ⟨(attach_measure v d).1, by simp [hn], attach_ctx v d, ?_⟩
        rw [attach_ctx v d]
        rfl
    · simp [yoga_set_measure, h0, hmem] at hset
  · rfl

/-- Witness for the C9 theorem at a concrete store, id and oracle. -/
theorem c9_witness :
    (2 : Nat) ≠ 0 ∧ (9 : Nat) ≠ 0 ∧
    yoga_set_measure parent_child_store 2 9 = some (c9_after, [7]) ∧
    ((∃ d, node_at 2 c9_after = some d ∧ d.ctx = some 9 ∧
      measure_proxy c9_measure d.ctx (.num 3) .exactly (.num 4) .atMost =
        c9_measure 9 ⟨.num 3, cast_measure_mode .exactly⟩
          ⟨.num 4, cast_measure_mode .atMost⟩) ∧
    measure_proxy c9_measure none (.num 3) .exactly (.num 4) .atMost =
      ⟨.num 0, .num 0⟩) :=
  ⟨by decide, by decide, by decide,
    measure_id_passed_unchanged c9_measure parent_child_store c9_after 2 9 [7]
      (by decide) (by decide) (by decide) (.num 3) (.num 4) .exactly .atMost⟩

/-! ### C10 — clearing equals setting measurement id zero -/

/-- C10: `yoga_clear_measure` and `yoga_set_measure` with id 0 are the
same store transformer: both null-check, clear the measure function,
drop any attached context through the same `drop_measure_context` path
(emitting the identical drop trace), and agree on the
undefined-behavior domain. -/
theorem clear_measure_refines_set_zero (s : YForest) (h : Nat) :
    yoga_clear_measure s h = yoga_set_measure s h 0 := rfl

/-! ### Helper lemmas for layout idempotence (C7) -/

/-- Writing layouts does not change the solver-relevant projection. -/
theorem project_write_all (f : Nat → YLayout) (s : YForest) :
    project (write_layouts_all f s) = project s := by
  induction s with
  | nil => rfl
  | node d c sb ihc ihs =>
    simp [write_layouts_all, project, project_node, write_layout, ihc, ihs]

/-- Writing the same layouts twice equals writing them once. -/
theorem write_all_idem (f : Nat → YLayout) (s : YForest) :
    write_layouts_all f (write_layouts_all f s) = write_layouts_all f s := by
  induction s with
  | nil => rfl
  | node d c sb ihc ihs =>
    simp [write_layouts_all, write_layout, ihc, ihs]

/-- The projected subtree at an address is unchanged by a layout
write at that address. -/
theorem subtree_project (a : Nat) (f : Nat → YLayout) (s : YForest) :
    (subtree_at a (write_layouts_at a f s)).map project
      = (subtree_at a s).map project := by
  induction s with
  | nil => rfl
  | node d c sb ihc ihs =>
    by_cases hd : d.addr = a
    · have hw : (write_layout f d).addr = a := hd
      simp only [write_layouts_at, hd, if_pos rfl, subtree_at, hw,
        Option.map_some]
      simp [project, project_node, write_layout, project_write_all]
    · have hw : ¬ (write_layout f d).addr = a := hd
      simp only [write_layouts_at, if_neg hd, subtree_at, if_neg hw]
      cases hc : subtree_at a c with
      | some t =>
        cases hc2 : subtree_at a (write_layouts_at a f c) with
        | none => rw [hc2, hc] at ihc; simp at ihc
        | some t2 =>
          rw [hc2, hc] at ihc
          simp at ihc
          simp [ihc]
      | none =>
        cases hc2 : subtree_at a (write_layouts_at a f c) with
        | some t2 => rw [hc2, hc] at ihc; simp at ihc
        | none => exact ihs

/-- Writing the same subtree layouts twice equals writing them once. -/
theorem write_at_idem (a : Nat) (f : Nat → YLayout) (s : YForest) :
    write_layouts_at a f (write_layouts_at a f s) = write_layouts_at a f s := by
  induction s with
  | nil => rfl
  | node d c sb ihc ihs =>
    by_cases hd : d.addr = a
    · have hw : (write_layout f d).addr = a := hd
      simp only [write_layouts_at, hd, if_pos rfl, hw]
      simp [write_layout, write_all_idem]
    · have hw : ¬ (write_layout f d).addr = a := hd
      simp only [write_layouts_at, if_neg hd]
      simp [if_neg hd, ihc, ihs]

/-! ### C7 — calculate-layout is idempotent -/

/-- C7: a second `yoga_calculate_layout` with the same available size
and no intervening change reproduces the same store, hence bit-identical
cached layouts for every node.  The solver is spec-modelled as a
function of the subtree's styles, structure and measurement attachment
(not of cached layouts or dirty flags), which is exactly what makes the
recomputation reproducible. -/
theorem calculate_layout_idempotent
    (solve : PForest → YFloat → YFloat → Nat → YLayout)
    (s s' : YForest) (h : Nat) (available : YogaAvailableSize)
    (hcall : yoga_calculate_layout solve s h available = some s') :
    yoga_calculate_layout solve s' h available = some s' := by
  by_cases h0 : h = 0
  · simp [yoga_calculate_layout, h0]
  · simp only [yoga_calculate_layout, if_neg h0] at hcall ⊢
    cases hsub : subtree_at h s with
    | none => rw [hsub] at hcall; simp at hcall
    | some t =>
      rw [hsub] at hcall
      simp only [Option.some.injEq] at hcall
      subst hcall
      have hp := subtree_project h
        (solve (project t) (value_or_undefined available.width)
          (value_or_undefined available.height)) s
      rw [hsub] at hp
      cases hsub2 : subtree_at h (write_layouts_at h
          (solve (project t) (value_or_undefined available.width)
            (value_or_undefined available.height)) s) with
      | none => rw [hsub2] at hp; simp at hp
      | some t2 =>
        rw [hsub2] at hp
        simp at hp
        dsimp only
        rw [hp, write_at_idem]

/-- Witness for the C7 theorem at a concrete solver and store. -/
theorem calculate_layout_idempotent_witness :
    yoga_calculate_layout c7_solve one_node_store 1 c7_avail = some c7_after ∧
    yoga_calculate_layout c7_solve c7_after 1 c7_avail = some c7_after :=
  ⟨by decide,
    calculate_layout_idempotent c7_solve one_node_store c7_after 1 c7_avail
      (by decide)⟩

/-! ### Helper lemmas for the flat child-graph store (C6, C8) -/

/-- Reading another address after a write. -/
theorem fget_fset_ne (a b : Nat) (n : FNode) (s : FStore) (h : b ≠ a) :
    fget b (fset a n s) = fget b s := by
  induction s with
  | nil => rfl
  | cons e tl ih =>
    by_cases he : e.1 = a
    · have : ¬ (a = b) := fun hc => h hc.symm
      simp [fset, fget, he, this, ih]
    · simp [fset, fget, he, ih]

/-- Reading the written address after a write. -/
theorem fget_fset_self (a : Nat) (n : FNode) (s : FStore) :
    fget a (fset a n s) = (fget a s).map (fun _ => n) := by
  induction s with
  | nil => rfl
  | cons e tl ih =>
    by_cases he : e.1 = a
    · simp [fset, fget, he]
    · simp [fset, fget, he, ih]

/-- Reading after one owner update. -/
theorem fget_set_owner (q c : Nat) (o : Option Nat) (s : FStore) :
    fget q (set_owner c o s) =
      if q = c then (fget q s).map (fun n => { n with owner := o })
      else fget q s := by
  unfold set_owner
  cases hc : fget c s with
  | none =>
    by_cases hq : q = c
    · subst hq; simp [hc]
    · simp [hq]
  | some n =>
    by_cases hq : q = c
    · subst hq
      rw [fget_fset_self, hc]
      simp [hc]
    · simp [hq, fget_fset_ne c q _ s hq]

/-- Reading after a batch of owner updates. -/
theorem fget_set_owner_all (cs : List Nat) (o : Option Nat) (q : Nat) (s : FStore) :
    fget q (set_owner_all cs o s) =
      if q ∈ cs then (fget q s).map (fun n => { n with owner := o })
      else fget q s := by
  induction cs generalizing s with
  | nil => simp [set_owner_all]
  | cons c rest ih =>
    simp only [set_owner_all]
    rw [ih]
    by_cases hq : q ∈ rest
    · have hmem : q ∈ c :: rest := List.mem_cons_of_mem c hq
      rw [if_pos hq, if_pos hmem, fget_set_owner]
      by_cases hqc : q = c
      · rw [if_pos hqc]
        cases fget q s <;> simp
      · rw [if_neg hqc]
    · by_cases hqc : q = c
      · have hmem : q ∈ c :: rest := by simp [hqc]
        rw [if_neg hq, if_pos hmem, fget_set_owner, if_pos hqc]
      · have hmem : ¬ q ∈ c :: rest := by simp [hqc, hq]
        rw [if_neg hq, if_neg hmem, fget_set_owner, if_neg hqc]

/-- Writes keep every address's liveness. -/
theorem isSome_fset (a : Nat) (n : FNode) (s : FStore) (q : Nat) :
    (fget q (fset a n s)).isSome = (fget q s).isSome := by
  by_cases hq : q = a
  · subst hq
    rw [fget_fset_self]
    cases fget q s <;> simp
  · rw [fget_fset_ne a q n s hq]

/-- Owner updates keep every address's liveness. -/
theorem isSome_set_owner_all (cs : List Nat) (o : Option Nat) (s : FStore) (q : Nat) :
    (fget q (set_owner_all cs o s)).isSome = (fget q s).isSome := by
  rw [fget_set_owner_all]
  by_cases hq : q ∈ cs
  · rw [if_pos hq]; cases fget q s <;> simp
  · rw [if_neg hq]

/-- After the replacement primitive, the parent's children are exactly
the given list. -/
theorem prim_children (p : Nat) (refs : List Nat) (s : FStore)
    (hlive : (fget p s).isSome) :
    (fget p (yg_set_children_prim p refs s)).map FNode.children = some refs := by
  unfold yg_set_children_prim
  cases hn : fget p s with
  | none => rw [hn] at hlive; simp at hlive
  | some n =>
    dsimp only
    have h1 := fget_set_owner_all (n.children.filter (fun c => !refs.contains c)) none p s
    rw [hn] at h1
    by_cases hpf : p ∈ n.children.filter (fun c => !refs.contains c)
    · rw [if_pos hpf] at h1
      simp only [Option.map_some'] at h1
      rw [h1]
      dsimp only
      rw [fget_set_owner_all]
      by_cases hpr : p ∈ refs
      · rw [if_pos hpr, fget_fset_self, h1]; simp
      · rw [if_neg hpr, fget_fset_self, h1]; simp
    · rw [if_neg hpf] at h1
      rw [h1]
      dsimp only
      rw [fget_set_owner_all]
      by_cases hpr : p ∈ refs
      · rw [if_pos hpr, fget_fset_self, h1]; simp
      · rw [if_neg hpr, fget_fset_self, h1]; simp

/-- After clearing, the parent's children are empty. -/
theorem rac_children (p : Nat) (s : FStore) (hlive : (fget p s).isSome) :
    (fget p (remove_all_children p s)).map FNode.children = some [] := by
  unfold remove_all_children
  cases hn : fget p s with
  | none => rw [hn] at hlive; simp at hlive
  | some n =>
    dsimp only
    rw [fget_set_owner_all]
    by_cases hp : p ∈ n.children
    · rw [if_pos hp, fget_fset_self, hn]; simp
    · rw [if_neg hp, fget_fset_self, hn]; simp

/-- The replacement primitive destroys no node. -/
theorem isSome_prim (p : Nat) (refs : List Nat) (s : FStore) (q : Nat) :
    (fget q (yg_set_children_prim p refs s)).isSome = (fget q s).isSome := by
  unfold yg_set_children_prim
  cases hn : fget p s with
  | none => rfl
  | some n =>
    dsimp only
    rw [isSome_set_owner_all]
    cases h2 : fget p (set_owner_all (n.children.filter fun c => !refs.contains c) none s) with
    | none =>
      dsimp only
      rw [isSome_set_owner_all]
    | some n1 =>
      dsimp only
      rw [isSome_fset, isSome_set_owner_all]

/-- Clearing destroys no node. -/
theorem isSome_rac (p : Nat) (s : FStore) (q : Nat) :
    (fget q (remove_all_children p s)).isSome = (fget q s).isSome := by
  unfold remove_all_children
  cases hn : fget p s with
  | none => rfl
  | some n =>
    dsimp only
    rw [isSome_set_owner_all, isSome_fset]

/-- A child removed by the replacement primitive ends detached. -/
theorem detach_owner_prim (p : Nat) (refs : List Nat) (s : FStore) (n : FNode)
    (hn : fget p s = some n) (c : Nat) (hcby : c ∈ n.children) (hcr : c ∉ refs)
    (hcp : c ≠ p) :
    (fget c (yg_set_children_prim p refs s)).map FNode.owner
      = (fget c s).map (fun _ => (none : Option Nat)) := by
  have hcf : c ∈ n.children.filter (fun x => !refs.contains x) :=
    List.mem_filter.mpr ⟨hcby, by simpa using hcr⟩
  unfold yg_set_children_prim
  rw [hn]
  dsimp only
  rw [fget_set_owner_all, if_neg hcr]
  cases h2 : fget p (set_owner_all (n.children.filter fun x => !refs.contains x) none s) with
  | none =>
    dsimp only
    rw [fget_set_owner_all, if_pos hcf]
    cases fget c s <;> simp
  | some n1 =>
    dsimp only
    rw [fget_fset_ne p c _ _ hcp, fget_set_owner_all, if_pos hcf]
    cases fget c s <;> simp

/-- A child removed by the clearing primitive ends detached. -/
theorem detach_owner_rac (p : Nat) (s : FStore) (n : FNode)
    (hn : fget p s = some n) (c : Nat) (hcby : c ∈ n.children) (hcp : c ≠ p) :
    (fget c (remove_all_children p s)).map FNode.owner
      = (fget c s).map (fun _ => (none : Option Nat)) := by
  unfold remove_all_children
  rw [hn]
  dsimp only
  rw [fget_set_owner_all, if_pos hcby, fget_fset_ne p c _ _ hcp]
  cases fget c s <;> simp

/-! ### C8 — wholesale child replacement -/

/-- C8: on a live parent with live child handles, `yoga_set_children`
makes the parent's children exactly the given handles in the given
order (the empty list yields zero children), destroys no node, and
detaches (owner cleared) every previous child absent from the new
list. -/
theorem set_children_wholesale (s : FStore) (p : Nat) (hs : List Nat)
    (s' : FStore) (hp0 : p ≠ 0) (hlive : (fget p s).isSome)
    (hcall : yoga_set_children s p hs = some s') :
    (fget p s').map FNode.children = some hs ∧
    (∀ q, (fget q s').isSome = (fget q s).isSome) ∧
    (∀ c n, fget p s = some n → c ∈ n.children → c ∉ hs → c ≠ p →
      (fget c s').map FNode.owner
        = (fget c s).map (fun _ => (none : Option Nat))) := by
  unfold yoga_set_children at hcall
  rw [if_neg hp0, if_pos hlive] at hcall
  by_cases he : hs = []
  · rw [if_pos he] at hcall
    simp only [Option.some.injEq] at hcall
    subst hcall
    subst he
    refine ⟨rac_children p s hlive, fun q => isSome_rac p s q, ?_⟩
    intro c n hn hcby _ hcp
    exact detach_owner_rac p s n hn c hcby hcp
  · rw [if_neg he] at hcall
    simp only [Option.some.injEq] at hcall
    subst hcall
    refine ⟨prim_children p hs s hlive, fun q => isSome_prim p hs s q, ?_⟩
    intro c n hn hcby hcr hcp
    exact detach_owner_prim p hs s n hn c hcby hcr hcp

/-- Witness for the C8 theorem: replacing `[2]` by `[3]` on parent 1. -/
theorem set_children_wholesale_witness :
    (1 : Nat) ≠ 0 ∧ ((fget 1 c8_store).isSome = true) ∧
    yoga_set_children c8_store 1 [3] = some c8_after ∧
    (fget 1 c8_after).map FNode.children = some [3] ∧
    (fget 2 c8_after).isSome = (fget 2 c8_store).isSome ∧
    (fget 2 c8_after).map FNode.owner
      = (fget 2 c8_store).map (fun _ => (none : Option Nat)) :=
  ⟨by decide, by decide, by decide,
    (set_children_wholesale c8_store 1 [3] c8_after (by decide) (by decide)
      (by decide)).1,
    (set_children_wholesale c8_store 1 [3] c8_after (by decide) (by decide)
      (by decide)).2.1 2,
    (set_children_wholesale c8_store 1 [3] c8_after (by decide) (by decide)
      (by decide)).2.2 2 ⟨[2], none⟩ (by decide) (by decide) (by decide)
      (by decide)⟩

/-! ### C6 — no cycle check in yoga_set_children -/

/-- C6 counterexample: listing the parent itself as its only child is
not rejected: the call succeeds and mutates the store, leaving node 1
its own child (and hence its own ancestor). -/
theorem set_children_cycle_cex :
    yoga_set_children c6_store 1 [1] = some [(1, ⟨[1], some 1⟩)] ∧
    ([(1, (⟨[1], some 1⟩ : FNode))] : FStore) ≠ c6_store :=
  ⟨by decide, by decide⟩

/-- C6 (amended): `yoga_set_children` performs no cycle detection: for
every live parent, the list `[parent]` is installed unconditionally, so
the call succeeds and afterwards the parent is its own child. -/
theorem set_children_no_cycle_check (s : FStore) (p : Nat)
    (hp0 : p ≠ 0) (hlive : (fget p s).isSome) :
    ∃ s', yoga_set_children s p [p] = some s' ∧
      (fget p s').map FNode.children = some [p] := by
  refine ⟨yg_set_children_prim p [p] s, ?_, prim_children p [p] s hlive⟩
  unfold yoga_set_children
  rw [if_neg hp0, if_pos hlive, if_neg (by simp : ¬([p] : List Nat) = [])]

/-- Witness for the amended C6 theorem at the concrete one-node store. -/
theorem set_children_no_cycle_check_witness :
    (1 : Nat) ≠ 0 ∧ ((fget 1 c6_store).isSome = true) ∧
    (∃ s', yoga_set_children c6_store 1 [1] = some s' ∧
      (fget 1 s').map FNode.children = some [1]) :=
  ⟨by decide, by decide,
    set_children_no_cycle_check c6_store 1 (by decide) (by decide)⟩

end YogaBridge
